import Mathlib

/-
  Shallow embedding of the scholar-downloader backend (src/app.py).

  Strings are modelled as `List Char`.  Python byte strings (PDF payloads)
  are also modelled as `List Char` since only the 4-byte magic prefix is
  ever inspected.  Network effects are modelled by explicit environments:
  the paginated scraper receives `env : Nat → Option (List Block)` mapping
  a page index to the parsed result blocks of that page (`none` models a
  requests exception or a non-2xx status, which `raise_for_status` turns
  into an exception), and the downloaders receive
  `env : List Char → Option (List Char)` mapping a URL to the fetched
  body (`none` models a transport error or non-2xx status).
  `time.sleep` calls are modelled by a counter of performed delays.
  Python whitespace handling is modelled over the ASCII whitespace
  characters stripped by str.strip; the regex word/digit classes are
  modelled over ASCII, matching the data the scraper handles.
-/

set_option linter.unusedVariables false

namespace Scholar

/-- Characters stripped by Python str.strip (ASCII whitespace). -/
def pySpace (c : Char) : Bool :=
  c = ' ' || c = '\t' || c = '\n' || c = '\x0d' || c = '\x0b' || c = '\x0c'

/-- The characters removed by sanitize, from the regex character class
of app.py line 56. -/
def forbiddenChar (c : Char) : Bool :=
  c = '<' || c = '>' || c = ':' || c = '"' || c = '/' || c = '\\' ||
  c = '|' || c = '?' || c = '*'

/-- Characters kept by the re.sub of app.py line 56. -/
def keepChar (c : Char) : Bool := !forbiddenChar c

/-- The str.replace step of app.py line 57: one space becomes one underscore. -/
def repChar (c : Char) : Char := if c = ' ' then '_' else c

/-- Python str.lstrip for the default whitespace set. -/
def pyLStrip (l : List Char) : List Char := l.dropWhile pySpace

/-- Python str.rstrip for the default whitespace set. -/
def pyRStrip (l : List Char) : List Char := (l.reverse.dropWhile pySpace).reverse

/-- Python str.strip for the default whitespace set. -/
def pyStrip (l : List Char) : List Char := pyRStrip (pyLStrip l)

/-- app.py lines 54-57: re.sub removes the forbidden characters, then
strip, then spaces become underscores, then truncation to 150. -/
def sanitize (name : List Char) : List Char :=
  ((pyStrip (name.filter keepChar)).map repChar).take 150

/-- Python substring membership test (the `in` operator on str). -/
def containsSub (needle : List Char) : List Char → Bool
  | [] => needle.isEmpty
  | c :: rest => needle.isPrefixOf (c :: rest) || containsSub needle rest

/-- Python truthiness of an optional string: None and the empty string
are falsy. -/
def pyTruthy : Option (List Char) → Bool
  | none => false
  | some s => !s.isEmpty

/-- Python slice l[:n], including the negative-index case. -/
def pySliceTo (l : List α) (n : Int) : List α :=
  if 0 ≤ n then l.take n.toNat else l.take (l.length - (-n).toNat)

/-- The pdf_link / source_url pair consumed by resolve_pdf_url. -/
structure PdfSource where
  pdf_link : Option (List Char)
  source_url : Option (List Char)
deriving DecidableEq

/-- app.py lines 74-75: the source_url fallback of resolve_pdf_url.
The Python guard is truthiness of source_url together with a substring
test on its lowercase form. -/
def resolveFromSource (p : PdfSource) : Option (List Char) :=
  match p.source_url with
  | some su =>
      if !su.isEmpty && containsSub (".pdf".data) (su.map Char.toLower) then
        some su
      else none
  | none => none

/-- app.py lines 66-76.  The Python test `if url:` is truthiness, so an
empty pdf_link string falls through to the source_url branch. -/
def resolve_pdf_url (p : PdfSource) : Option (List Char) :=
  match p.pdf_link with
  | some url =>
      if url.isEmpty then resolveFromSource p
      else if ("//".data).isPrefixOf url then some (("https:".data) ++ url)
      else if ("/".data).isPrefixOf url then
        some (("https://scholar.google.com".data) ++ url)
      else some url
  | none => resolveFromSource p

/-- Regex word character (the \w class, ASCII part). -/
def isWordChar (c : Char) : Bool := c.isAlphanum || c = '_'

/-- A word boundary exists next to a digit when the neighbour is absent
or not a word character. -/
def noWordO : Option Char → Bool
  | none => true
  | some c => !isWordChar c

/-- Whether a list of characters is exactly one 19xx/20xx token. -/
def isYear4 : List Char → Bool
  | [a, b, c, d] =>
      ((a = '1' && b = '9') || (a = '2' && b = '0')) && c.isDigit && d.isDigit
  | _ => false

/-- Whether the regex of app.py line 116 matches at the head of l, where
prev is the character just before this position (none at the start of
the string). -/
def yearHead (prev : Option Char) (l : List Char) : Bool :=
  isYear4 (l.take 4) && noWordO prev && noWordO (l.get? 4)

/-- Leftmost-match scan of re.search for the pattern of app.py line 116,
carrying the previous character for the left word boundary. -/
def findYearAux (prev : Option Char) : List Char → Option (List Char)
  | [] => none
  | c :: rest =>
      if yearHead prev (c :: rest) then some ((c :: rest).take 4)
      else findYearAux (some c) rest

/-- app.py lines 116-117: the extracted year, with sentinel N/A. -/
def yearOfAuthors (authors : List Char) : List Char :=
  (findYearAux none authors).getD ("N/A".data)

/-- A parsed title heading: its text and the href of the embedded anchor,
when present (app.py lines 110-111 and 131-134). -/
structure TitleTag where
  text : List Char
  href : Option (List Char)
deriving DecidableEq

/-- One raw gs_r result block, reduced to the pieces the extractor reads:
the title heading, the gs_a byline text, the gs_rs snippet text, and the
href of an anchor labelled [PDF] (app.py lines 106-134). -/
structure Block where
  title : Option TitleTag
  info_text : Option (List Char)
  abs_text : Option (List Char)
  pdf_href : Option (List Char)
deriving DecidableEq

/-- The paper metadata dict built by the scraper loop body. -/
structure Paper where
  title : List Char
  authors : List Char
  year : List Char
  abstract : List Char
  pdf_link : Option (List Char)
  source_url : Option (List Char)
  download_url : Option (List Char)
  has_pdf : Bool
deriving DecidableEq

/-- app.py lines 106-140: the per-block field extraction, year match,
PDF-link resolution and has_pdf derivation. -/
def extractPaper (item : Block) : Paper :=
  let titleText := match item.title with
    | some t => t.text
    | none => ("Untitled".data)
  let authors := item.info_text.getD ("Unknown".data)
  let sourceUrl := match item.title with
    | some t => t.href
    | none => none
  let durl := resolve_pdf_url { pdf_link := item.pdf_href, source_url := sourceUrl }
  { title := titleText
    authors := authors
    year := yearOfAuthors authors
    abstract := item.abs_text.getD []
    pdf_link := item.pdf_href
    source_url := sourceUrl
    download_url := durl
    has_pdf := durl.isSome }

/-- app.py lines 90-145: the page loop.  fuel is the number of pages
still allowed, idx the current page index, acc the accumulator.  A fetch
failure or an empty page breaks; reaching num_results breaks after the
page is appended. -/
def scrapeLoop (env : Nat → Option (List Block)) (num : Int) :
    Nat → Nat → List Paper → List Paper
  | 0, _, acc => acc
  | fuel + 1, idx, acc =>
      match env idx with
      | none => acc
      | some items =>
          if items.isEmpty then acc
          else
            let acc2 := acc ++ items.map extractPaper
            if num ≤ (acc2.length : Int) then acc2
            else scrapeLoop env num fuel (idx + 1) acc2

/-- app.py lines 82-147: pages_needed is Python floor division num//10
plus one (Int.fdiv models //); the final Python slice is all_papers[:num]. -/
def scrape_scholar (env : Nat → Option (List Block)) (topic : List Char)
    (num_results : Int) : List Paper :=
  pySliceTo (scrapeLoop env num_results ((num_results.fdiv 10 + 1).toNat) 0 [])
    num_results

/-- app.py line 169 followed by line 174: the search route clamps
num_results to MAX_RESULTS = 30 before invoking the scraper. -/
def searchPapers (env : Nat → Option (List Block)) (topic : List Char)
    (num_results : Int) : List Paper :=
  scrape_scholar env topic (min num_results 30)

/-- The paper dict received by the download-zip route: the fields read
by app.py lines 245-253.  Fields are optional because dict.get supplies
defaults. -/
structure RecordIn where
  title : Option (List Char)
  authors : Option (List Char)
  year : Option (List Char)
  abstract : Option (List Char)
  download_url : Option (List Char)
deriving DecidableEq

/-- State threaded through the download-zip loop: successes, the PDF
archive entries written so far, the per-record report blocks, the number
of performed time.sleep(1) delays, and the number of issued fetches. -/
structure ZipState where
  downloaded : Nat
  pdfEntries : List (List Char × List Char)
  blocks : List (List (List Char))
  sleeps : Nat
  fetches : Nat
deriving DecidableEq

def initZipState : ZipState :=
  { downloaded := 0, pdfEntries := [], blocks := [], sleeps := 0, fetches := 0 }

/-- app.py lines 249-254: the six report lines written for record i
(0-based index, displayed 1-based). -/
def reportBlock (i : Nat) (title : List Char) (p : RecordIn) : List (List Char) :=
  [ ("[".data) ++ (Nat.repr (i + 1)).data ++ ("] ".data) ++ title,
    ("    Authors  : ".data) ++ p.authors.getD ("N/A".data),
    ("    Year     : ".data) ++ p.year.getD ("N/A".data),
    ("    Abstract : ".data) ++ (p.abstract.getD ("N/A".data)).take 200,
    ("    PDF URL  : ".data) ++
      (if pyTruthy p.download_url then p.download_url.getD [] else ("N/A".data)),
    [] ]

/-- app.py lines 244-270: one iteration of the download-zip loop.  The
report block is always appended; a falsy URL skips the fetch; a fetch
error, or a payload failing the %PDF magic check, hits a continue that
also skips the time.sleep(1); only a successful write sleeps. -/
def zipStep (env : List Char → Option (List Char)) (i : Nat) (p : RecordIn)
    (st : ZipState) : ZipState :=
  let title := p.title.getD (("paper_".data) ++ (Nat.repr (i + 1)).data)
  let st1 := { st with blocks := st.blocks ++ [reportBlock i title p] }
  if !pyTruthy p.download_url then st1
  else
    let u := p.download_url.getD []
    let st2 := { st1 with fetches := st1.fetches + 1 }
    match env u with
    | none => st2
    | some content =>
        if content.take 4 ≠ ("%PDF".data) then st2
        else
          { st2 with
            pdfEntries := st2.pdfEntries ++ [(sanitize title ++ (".pdf".data), content)]
            downloaded := st2.downloaded + 1
            sleeps := st2.sleeps + 1 }

/-- The enumerate loop of app.py line 244. -/
def zipFold (env : List Char → Option (List Char)) :
    Nat → List RecordIn → ZipState → ZipState
  | _, [], st => st
  | i, p :: rest, st => zipFold env (i + 1) rest (zipStep env i p st)

/-- app.py lines 273-280: the report header prepended to the joined
per-record lines. -/
def reportHeader (topic : List Char) (total downloaded : Nat) : List Char :=
  ("Research Paper Download Report\nTopic : ".data) ++ topic ++
  ("\nPapers: ".data) ++ (Nat.repr total).data ++
  ("\nDownloaded PDFs: ".data) ++ (Nat.repr downloaded).data ++
  ("\n".data) ++ List.replicate 60 '=' ++ ("\n\n".data)

/-- The outcome of the download-zip route body: the archive entry list
(PDF entries in write order, then the metadata report entry), the report
text, and the loop counters. -/
structure ZipResult where
  archive : List (List Char × List Char)
  report : List Char
  pdfEntries : List (List Char × List Char)
  blocks : List (List (List Char))
  downloaded : Nat
  sleeps : Nat
  fetches : Nat
  filename : List Char
deriving DecidableEq

/-- app.py lines 238-285: run the loop, synthesize the report, append it
to the archive, and derive the attachment filename. -/
def downloadZipRun (env : List Char → Option (List Char))
    (papers : List RecordIn) (topic : List Char) : ZipResult :=
  let st := zipFold env 0 papers initZipState
  let report := reportHeader topic papers.length st.downloaded ++
    List.intercalate ("\n".data) st.blocks.flatten
  { archive := st.pdfEntries ++ [(("metadata_report.txt".data), report)]
    report := report
    pdfEntries := st.pdfEntries
    blocks := st.blocks
    downloaded := st.downloaded
    sleeps := st.sleeps
    fetches := st.fetches
    filename := sanitize topic ++ ("_papers.zip".data) }

/-- app.py lines 224-290: the route rejects an empty paper list with a
client error and otherwise returns the built archive. -/
def download_zip (env : List Char → Option (List Char))
    (papers : List RecordIn) (topic : List Char) : Except (List Char) ZipResult :=
  if papers.isEmpty then Except.error ("No papers provided".data)
  else Except.ok (downloadZipRun env papers topic)

/-- Responses of the single-download route: a 400 client error, a 500
server error, or a served file. -/
inductive SingleResp where
  | clientError (msg : List Char)
  | serverError (msg : List Char)
  | file (filename : List Char) (content : List Char)
deriving DecidableEq

/-- app.py lines 191-220: missing or empty URL gives a 400; a fetch
exception gives a 500; a payload failing the %PDF magic check gives a
400 and no file; otherwise the PDF is served under the sanitized
title. -/
def download_single (env : List Char → Option (List Char))
    (urlOpt titleOpt : Option (List Char)) : SingleResp :=
  let title := titleOpt.getD ("paper".data)
  if !pyTruthy urlOpt then SingleResp.clientError ("URL is required".data)
  else
    match env (urlOpt.getD []) with
    | none => SingleResp.serverError ("Download failed".data)
    | some content =>
        if content.take 4 ≠ ("%PDF".data) then
          SingleResp.clientError ("The URL does not serve a valid PDF file.".data)
        else SingleResp.file (sanitize title ++ (".pdf".data)) content

/-
  Spec-side definitions, written from the words of the specification and
  of the claims, for comparison with the source-side definitions above.
-/

/-- The resolver rule exactly as the claim words it, reading "present"
as: the optional field carries a value (possibly the empty string). -/
def resolveSpecLiteral (p : PdfSource) : Option (List Char) :=
  match p.pdf_link with
  | some url =>
      if ("//".data).isPrefixOf url then some (("https:".data) ++ url)
      else if ("/".data).isPrefixOf url then
        some (("https://scholar.google.com".data) ++ url)
      else some url
  | none =>
      match p.source_url with
      | some su =>
          if containsSub (".pdf".data) (su.map Char.toLower) then some su
          else none
      | none => none

/-- The resolver rule with "present" read as "present and non-empty"
(Python truthiness), phrased as a first-match-wins guard chain. -/
def resolveSpecAmended (p : PdfSource) : Option (List Char) :=
  if pyTruthy p.pdf_link then
    let url := p.pdf_link.getD []
    if ("//".data).isPrefixOf url then some (("https:".data) ++ url)
    else if ("/".data).isPrefixOf url then
      some (("https://scholar.google.com".data) ++ url)
    else some url
  else if pyTruthy p.source_url &&
      containsSub (".pdf".data) ((p.source_url.getD []).map Char.toLower) then
    p.source_url
  else none

/-- The character just before position i of s, if any. -/
def prevCharAt (s : List Char) (i : Nat) : Option Char :=
  if i = 0 then none else s.get? (i - 1)

/-- Position i of s starts a word-bounded 4-digit 19xx/20xx token. -/
def yearTokenAt (s : List Char) (i : Nat) : Bool :=
  isYear4 ((s.drop i).take 4) && noWordO (prevCharAt s i) && noWordO (s.get? (i + 4))

/-- The position of the first word-bounded 19xx/20xx token of s, if any. -/
def specYearFind (s : List Char) : Option Nat :=
  (List.range s.length).find? (yearTokenAt s)

/-- The year field as the claim words it: the first word-bounded 4-digit
token beginning with 19 or 20, and the sentinel N/A when none occurs. -/
def specYear (s : List Char) : List Char :=
  match specYearFind s with
  | some i => (s.drop i).take 4
  | none => ("N/A".data)

/-
  Helper lemmas about the sanitize pipeline.
-/

lemma head_false_of_dropWhile {p : Char → Bool} {l : List Char} {c : Char}
    (h : (l.dropWhile p).head? = some c) : p c = false := by
  induction l with
  | nil => simp [List.dropWhile] at h
  | cons a t ih =>
      rw [List.dropWhile_cons] at h
      by_cases hp : p a
      · rw [if_pos hp] at h
        exact ih h
      · rw [if_neg hp] at h
        simp at h
        subst h
        simpa using hp

lemma dropWhile_eq_self_of_head {p : Char → Bool} {l : List Char}
    (h : ∀ c, l.head? = some c → p c = false) : l.dropWhile p = l := by
  cases l with
  | nil => rfl
  | cons a t =>
      rw [List.dropWhile_cons, h a rfl]
      simp

lemma mem_of_mem_pyRStrip {l : List Char} {c : Char} (h : c ∈ pyRStrip l) :
    c ∈ l := by
  unfold pyRStrip at h
  rw [List.mem_reverse] at h
  exact List.mem_reverse.mp (List.Sublist.mem h (List.dropWhile_sublist _))

lemma mem_of_mem_pyStrip {l : List Char} {c : Char} (h : c ∈ pyStrip l) :
    c ∈ l := by
  unfold pyStrip pyLStrip at h
  exact List.Sublist.mem (mem_of_mem_pyRStrip h) (List.dropWhile_sublist _)

/-- Every character of a sanitized name is the image under the space
replacement of a character that survived the forbidden-character filter. -/
lemma sanitize_shape {s : List Char} {c : Char} (h : c ∈ sanitize s) :
    ∃ c0, keepChar c0 = true ∧ c = repChar c0 := by
  unfold sanitize at h
  have h1 : c ∈ (pyStrip (s.filter keepChar)).map repChar :=
    List.Sublist.mem h (List.take_sublist _ _)
  rcases List.mem_map.mp h1 with ⟨c0, hc0, rfl⟩
  exact ⟨c0, (List.mem_filter.mp (mem_of_mem_pyStrip hc0)).2, rfl⟩

lemma pySpace_repChar {c : Char} (h : pySpace c = false) :
    pySpace (repChar c) = false := by
  unfold repChar
  split
  · next he => rw [he] at h; simp [pySpace] at h
  · exact h

lemma repChar_ne_space (c : Char) : repChar c ≠ ' ' := by
  unfold repChar
  split
  · decide
  · next h => exact h

lemma keepChar_repChar {c : Char} (h : keepChar c = true) :
    keepChar (repChar c) = true := by
  unfold repChar
  split
  · decide
  · exact h

lemma repChar_repChar (c : Char) : repChar (repChar c) = repChar c := by
  by_cases h : c = ' '
  · subst h; decide
  · simp [repChar, h]

lemma head?_of_take {n : Nat} {l : List Char} {c : Char}
    (h : (l.take n).head? = some c) : l.head? = some c := by
  cases n with
  | zero => simp at h
  | succ m =>
      cases l with
      | nil => simp at h
      | cons a t => simpa using h

lemma head?_append_left {u v : List Char} {c : Char} (h : u.head? = some c) :
    (u ++ v).head? = some c := by
  cases u with
  | nil => simp at h
  | cons a t => simpa using h

lemma head?_of_pyRStrip {l : List Char} {c : Char}
    (h : (pyRStrip l).head? = some c) : l.head? = some c := by
  have hl : l = pyRStrip l ++ (l.reverse.takeWhile pySpace).reverse := by
    unfold pyRStrip
    rw [← List.reverse_append, List.takeWhile_append_dropWhile, List.reverse_reverse]
  rw [hl]
  exact head?_append_left h

lemma head?_of_map {f : Char → Char} {l : List Char} {c : Char}
    (h : (l.map f).head? = some c) : ∃ c0, l.head? = some c0 ∧ c = f c0 := by
  cases l with
  | nil => simp at h
  | cons a t =>
      refine ⟨a, rfl, ?_⟩
      simp at h
      exact h.symm

/-- The head of a sanitized name is never whitespace: leading whitespace
was stripped before the truncation. -/
lemma sanitize_head {s : List Char} {c : Char}
    (h : (sanitize s).head? = some c) : pySpace c = false := by
  unfold sanitize at h
  have h1 : ((pyStrip (s.filter keepChar)).map repChar).head? = some c :=
    head?_of_take h
  rcases head?_of_map h1 with ⟨c0, hh, rfl⟩
  have h2 : ((s.filter keepChar).dropWhile pySpace).head? = some c0 :=
    head?_of_pyRStrip hh
  exact pySpace_repChar (head_false_of_dropWhile h2)

/-- C7 counterexample input: the forbidden-character filter and the
strip keep the string intact, the truncation to 150 characters then cuts
right after an interior tab, leaving a trailing tab that a second
application of sanitize strips. -/
def c7Input : List Char := List.replicate 149 'b' ++ ['\t', 'c']

/-- C7: the claim as stated is false: sanitize is not idempotent on
every input, because truncation can expose a trailing non-space
whitespace character (here a tab) that only the second application
removes. -/
theorem sanitize_not_idempotent :
    sanitize (sanitize c7Input) ≠ sanitize c7Input := by decide

/-- C7 (amended): sanitize is idempotent on every input whose sanitized
form carries no trailing whitespace, i.e. on every s with
pyRStrip (sanitize s) = sanitize s; this holds in particular whenever
the truncation to 150 characters does not cut the string. -/
theorem sanitize_idempotent_of_no_trailing_space (s : List Char)
    (h : pyRStrip (sanitize s) = sanitize s) :
    sanitize (sanitize s) = sanitize s := by
  have hfilter : (sanitize s).filter keepChar = sanitize s :=
    List.filter_eq_self.mpr fun c hc => by
      rcases sanitize_shape hc with ⟨c0, hk, rfl⟩
      exact keepChar_repChar hk
  have hdrop : (sanitize s).dropWhile pySpace = sanitize s :=
    dropWhile_eq_self_of_head fun c hc => sanitize_head hc
  have hmap : (sanitize s).map repChar = sanitize s := by
    have : ∀ c ∈ sanitize s, repChar c = id c := fun c hc => by
      rcases sanitize_shape hc with ⟨c0, _, rfl⟩
      exact repChar_repChar c0
    rw [List.map_congr_left this, List.map_id]
  have htake : (sanitize s).take 150 = sanitize s := by
    conv_lhs => rw [sanitize]
    rw [List.take_take]
    rfl
  calc sanitize (sanitize s)
      = ((pyStrip ((sanitize s).filter keepChar)).map repChar).take 150 := rfl
    _ = ((pyRStrip ((sanitize s).dropWhile pySpace)).map repChar).take 150 := by
        rw [hfilter]; rfl
    _ = ((sanitize s).map repChar).take 150 := by rw [hdrop, h]
    _ = sanitize s := by rw [hmap, htake]

/-- C7 witness: a concrete input satisfying the hypothesis, on which
idempotence holds. -/
theorem sanitize_idempotent_witness :
    pyRStrip (sanitize ("a b".data)) = sanitize ("a b".data) ∧
    sanitize (sanitize ("a b".data)) = sanitize ("a b".data) :=
  ⟨by decide, sanitize_idempotent_of_no_trailing_space ("a b".data) (by decide)⟩

/-- C10: sanitize is total by construction; its output never exceeds 150
characters and consists only of characters the forbidden-character
filter keeps; the output can be empty (a name of only forbidden
characters), in which case the single-download filename degenerates to
.pdf and the archive filename to _papers.zip. -/
theorem sanitize_safe :
    (∀ s : List Char,
      (sanitize s).length ≤ 150 ∧ (sanitize s).all keepChar = true) ∧
    sanitize ("???".data) = [] ∧
    download_single (fun _ => some ("%PDF".data)) (some ("u".data))
      (some ("???".data)) = SingleResp.file (".pdf".data) ("%PDF".data) ∧
    (downloadZipRun (fun _ => none) [] ("???".data)).filename =
      ("_papers.zip".data) := by
  refine ⟨fun s => ⟨?_, ?_⟩, by decide, by decide, by decide⟩
  · exact List.length_take_le _ _
  · exact List.all_eq_true.mpr fun c hc => by
      rcases sanitize_shape hc with ⟨c0, hk, rfl⟩
      exact keepChar_repChar hk

/-
  C2: the PDF-link resolver.
-/

/-- C2 counterexample input: pdf_link present but empty, source_url a
PDF landing page. -/
def pdfEmptySrc : PdfSource :=
  { pdf_link := some [], source_url := some ("http://x.com/a.pdf".data) }

/-- C2 counterexample: with pdf_link present but equal to the empty
string, the code falls through to the source_url rule (Python truthiness
of the empty string), while the claim as stated keeps the present
pdf_link unchanged.  The two disagree at this record. -/
theorem resolve_pdf_url_not_literal :
    resolve_pdf_url pdfEmptySrc = some ("http://x.com/a.pdf".data) ∧
    resolveSpecLiteral pdfEmptySrc = some [] ∧
    resolve_pdf_url pdfEmptySrc ≠ resolveSpecLiteral pdfEmptySrc := by decide

/-- C2 (amended): the resolver follows the claimed rule with "present"
read as "present and non-empty" (Python truthiness) in the pdf_link
guard. -/
theorem resolve_pdf_url_spec (p : PdfSource) :
    resolve_pdf_url p = resolveSpecAmended p := by
  unfold resolve_pdf_url resolveSpecAmended resolveFromSource pyTruthy
  cases hp : p.pdf_link with
  | none =>
      cases hs : p.source_url with
      | none => rfl
      | some su =>
          by_cases he : su.isEmpty <;>
            by_cases hc : containsSub (".pdf".data) (su.map Char.toLower) <;>
              simp [he, hc, hs]
  | some url =>
      by_cases hu : url.isEmpty
      · cases hs : p.source_url with
        | none => simp [hu]
        | some su =>
            by_cases he : su.isEmpty <;>
              by_cases hc : containsSub (".pdf".data) (su.map Char.toLower) <;>
                simp [hu, he, hc, hs]
      · simp [hu]

/-
  C3 / C1 / C9: the scraper.
-/

lemma resolveFromSource_ne_nil (p : PdfSource) :
    resolveFromSource p ≠ some [] := by
  unfold resolveFromSource
  cases hs : p.source_url with
  | none => simp
  | some su =>
      by_cases he : su.isEmpty
      · simp [he]
      · by_cases hc : containsSub (".pdf".data) (su.map Char.toLower)
        · simp only [he, hc]
          intro h
          simp at h
          rw [h] at he
          simp at he
        · simp [he, hc]

/-- The resolver never produces the empty string: every produced URL is
either prefixed with a non-empty scheme or origin, or was itself a
truthy (non-empty) Python string. -/
lemma resolve_pdf_url_ne_nil (p : PdfSource) :
    resolve_pdf_url p ≠ some [] := by
  unfold resolve_pdf_url
  cases hp : p.pdf_link with
  | none => exact resolveFromSource_ne_nil p
  | some url =>
      dsimp only
      by_cases hu : url.isEmpty = true
      · rw [if_pos hu]
        exact resolveFromSource_ne_nil p
      · rw [if_neg hu]
        by_cases h2 : ("//".data).isPrefixOf url = true
        · rw [if_pos h2]
          intro h
          simp at h
        · rw [if_neg h2]
          by_cases h3 : ("/".data).isPrefixOf url = true
          · rw [if_pos h3]
            intro h
            simp at h
          · rw [if_neg h3]
            intro h
            simp at h
            rw [h] at hu
            simp at hu

lemma mem_pySliceTo {l : List α} {n : Int} {q : α} (h : q ∈ pySliceTo l n) :
    q ∈ l := by
  unfold pySliceTo at h
  split at h <;> exact List.Sublist.mem h (List.take_sublist _ _)

/-- Every paper accumulated by the page loop is either already in the
accumulator or the extraction of some result block. -/
lemma scrapeLoop_mem : ∀ (fuel : Nat) (env : Nat → Option (List Block))
    (num : Int) (idx : Nat) (acc : List Paper) (q : Paper),
    q ∈ scrapeLoop env num fuel idx acc →
    q ∈ acc ∨ ∃ b : Block, q = extractPaper b := by
  intro fuel
  induction fuel with
  | zero => intro env num idx acc q h; exact Or.inl h
  | succ n ih =>
      intro env num idx acc q h
      rw [scrapeLoop] at h
      cases henv : env idx with
      | none => rw [henv] at h; exact Or.inl h
      | some items =>
          rw [henv] at h
          dsimp only at h
          by_cases hemp : items.isEmpty
          · rw [if_pos hemp] at h; exact Or.inl h
          · rw [if_neg hemp] at h
            have hsplit : q ∈ acc ++ items.map extractPaper →
                q ∈ acc ∨ ∃ b : Block, q = extractPaper b := by
              intro hm
              rcases List.mem_append.mp hm with hm | hm
              · exact Or.inl hm
              · rcases List.mem_map.mp hm with ⟨b, _, rfl⟩
                exact Or.inr ⟨b, rfl⟩
            by_cases hlen : num ≤ ((acc ++ items.map extractPaper).length : Int)
            · rw [if_pos hlen] at h
              exact hsplit h
            · rw [if_neg hlen] at h
              rcases ih env num (idx + 1) _ q h with hm | hm
              · exact hsplit hm
              · exact Or.inr hm

/-- C3: every record returned by scrape_scholar satisfies: has_pdf is
true exactly when download_url carries a non-empty string; in
particular a record with has_pdf never has an absent or empty
download_url. -/
theorem scraped_has_pdf_iff (env : Nat → Option (List Block))
    (topic : List Char) (num : Int) (q : Paper)
    (h : q ∈ scrape_scholar env topic num) :
    q.has_pdf = true ↔ ∃ s, q.download_url = some s ∧ s ≠ [] := by
  have h0 : q ∈ scrapeLoop env num ((num.fdiv 10 + 1).toNat) 0 [] :=
    mem_pySliceTo h
  rcases scrapeLoop_mem _ env num 0 [] q h0 with hm | ⟨b, rfl⟩
  · simp at hm
  · have hpdf : (extractPaper b).has_pdf =
        ((extractPaper b).download_url).isSome := rfl
    constructor
    · intro hs
      rw [hpdf] at hs
      rcases Option.isSome_iff_exists.mp hs with ⟨s, hsome⟩
      refine ⟨s, hsome, fun hnil => ?_⟩
      subst hnil
      exact resolve_pdf_url_ne_nil _ hsome
    · rintro ⟨s, hsome, -⟩
      rw [hpdf, hsome]
      rfl

/-- A page environment always returning ten empty result blocks. -/
def envFull : Nat → Option (List Block) :=
  fun _ => some (List.replicate 10
    { title := none, info_text := none, abs_text := none, pdf_href := none })

/-- A page environment returning one block whose title links to a PDF
landing page. -/
def envW : Nat → Option (List Block) :=
  fun _ => some [{ title := some { text := ("A".data),
                                   href := some ("http://x.com/f.pdf".data) },
                   info_text := none, abs_text := none, pdf_href := none }]

/-- C3 witness: the record scraped from envW has a PDF, and indeed a
non-empty download_url. -/
theorem scraped_has_pdf_iff_witness :
    ((extractPaper { title := some { text := ("A".data),
                                     href := some ("http://x.com/f.pdf".data) },
                     info_text := none, abs_text := none,
                     pdf_href := none }).has_pdf = true ↔
      ∃ s, (extractPaper { title := some { text := ("A".data),
                                           href := some ("http://x.com/f.pdf".data) },
                           info_text := none, abs_text := none,
                           pdf_href := none }).download_url = some s ∧ s ≠ []) :=
  scraped_has_pdf_iff envW ("t".data) 1 _ (by decide)

/-- C1 counterexample: scrape_scholar itself enforces no 30-result cap:
with every page full, a request for 40 returns 40 papers, exceeding
min(40, 30) = 30.  The clamp lives in the search route, not in
scrape_scholar. -/
theorem scrape_scholar_no_cap :
    ¬ (((scrape_scholar envFull ("t".data) 40).length : Int) ≤
        min (40 : Int) 30) := by decide

/-- C1 (amended): for nonnegative desired counts, scrape_scholar
returns at most desired_count papers, and the search route, which
clamps the count to MAX_RESULTS = 30 before scraping, returns at most
min(desired_count, 30) papers. -/
theorem scrape_length_le (env : Nat → Option (List Block))
    (topic : List Char) (num : Int) (h : 0 ≤ num) :
    ((scrape_scholar env topic num).length : Int) ≤ num ∧
    ((searchPapers env topic num).length : Int) ≤ min num 30 := by
  have key : ∀ m : Int, 0 ≤ m →
      ((scrape_scholar env topic m).length : Int) ≤ m := by
    intro m hm
    unfold scrape_scholar pySliceTo
    rw [if_pos hm]
    calc ((List.take m.toNat _).length : Int)
        ≤ (m.toNat : Int) := by exact_mod_cast List.length_take_le _ _
      _ = m := Int.toNat_of_nonneg hm
  exact ⟨key num h, key _ (le_min h (by norm_num))⟩

/-- C1 witness: a concrete nonnegative count. -/
theorem scrape_length_le_witness :
    (0 : Int) ≤ 7 ∧
    ((scrape_scholar envFull ("t".data) 7).length : Int) ≤ 7 ∧
    ((searchPapers envFull ("t".data) 7).length : Int) ≤ min 7 30 :=
  ⟨by decide, (scrape_length_le envFull ("t".data) 7 (by decide)).1,
    (scrape_length_le envFull ("t".data) 7 (by decide)).2⟩

/-- C9: a negative desired count makes pages_needed = count // 10 + 1
nonpositive (Python floor division), so the loop runs zero times, no
page is fetched under any environment, and the result is empty. -/
theorem scrape_negative (topic : List Char) (num : Int) (h : num < 0) :
    num.fdiv 10 + 1 ≤ 0 ∧
    ∀ env : Nat → Option (List Block), scrape_scholar env topic num = [] := by
  have hd : num.fdiv 10 < 0 := by
    rw [Int.fdiv_eq_ediv _ (by norm_num : (0 : Int) ≤ 10)]
    exact Int.ediv_neg' h (by norm_num)
  refine ⟨by omega, fun env => ?_⟩
  unfold scrape_scholar
  rw [Int.toNat_of_nonpos (by omega)]
  show pySliceTo ([] : List Paper) num = []
  unfold pySliceTo
  split <;> simp

/-- C9 witness: the concrete count -1. -/
theorem scrape_negative_witness :
    ((-1 : Int) < 0) ∧ ((-1 : Int).fdiv 10 + 1 ≤ 0) ∧
    scrape_scholar envFull ("t".data) (-1) = [] :=
  ⟨by decide, (scrape_negative ("t".data) (-1) (by decide)).1,
    (scrape_negative ("t".data) (-1) (by decide)).2 envFull⟩

/-
  C4 / C5 / C6: the archive builder and the single download.
-/

/-- One loop iteration appends exactly one report block and either
leaves the success counter, the archive entries and the sleep counter
unchanged, or advances all three by one (a successful download). -/
lemma zipStep_delta (env : List Char → Option (List Char)) (i : Nat)
    (p : RecordIn) (st : ZipState) :
    ∃ b : Bool,
      (zipStep env i p st).downloaded = st.downloaded + b.toNat ∧
      (zipStep env i p st).pdfEntries.length = st.pdfEntries.length + b.toNat ∧
      (zipStep env i p st).sleeps = st.sleeps + b.toNat ∧
      (zipStep env i p st).blocks.length = st.blocks.length + 1 := by
  unfold zipStep
  dsimp only
  by_cases h1 : pyTruthy p.download_url = true
  · simp only [h1, Bool.not_true, Bool.false_eq_true, if_false]
    cases henv : env (p.download_url.getD []) with
    | none => exact ⟨false, by simp⟩
    | some content =>
        by_cases h2 : content.take 4 = ("%PDF".data)
        · simp only [h2, ne_eq, not_true_eq_false, Bool.false_eq_true, if_false]
          exact ⟨true, by simp⟩
        · simp only [ne_eq, h2, not_false_eq_true, if_true]
          exact ⟨false, by simp⟩
  · simp only [h1]
    exact ⟨false, by simp [h1]⟩

/-- Loop invariant: over any record list, the success counter, the
number of archive PDF entries and the number of sleeps all advance by
one common amount d bounded by the list length, while exactly one
report block is appended per record. -/
lemma zipFold_delta : ∀ (papers : List RecordIn)
    (env : List Char → Option (List Char)) (i : Nat) (st : ZipState),
    ∃ d : Nat, d ≤ papers.length ∧
      (zipFold env i papers st).downloaded = st.downloaded + d ∧
      (zipFold env i papers st).pdfEntries.length = st.pdfEntries.length + d ∧
      (zipFold env i papers st).sleeps = st.sleeps + d ∧
      (zipFold env i papers st).blocks.length = st.blocks.length + papers.length := by
  intro papers
  induction papers with
  | nil => intro env i st; exact ⟨0, by simp [zipFold]⟩
  | cons p rest ih =>
      intro env i st
      obtain ⟨b, hb1, hb2, hb3, hb4⟩ := zipStep_delta env i p st
      obtain ⟨d, hd0, hd1, hd2, hd3, hd4⟩ := ih env (i + 1) (zipStep env i p st)
      have hbn : b.toNat ≤ 1 := by cases b <;> decide
      have hfold : zipFold env i (p :: rest) st =
          zipFold env (i + 1) rest (zipStep env i p st) := rfl
      refine ⟨b.toNat + d, ?_, ?_, ?_, ?_, ?_⟩
      · simp only [List.length_cons]
        omega
      · rw [hfold, hd1, hb1]; omega
      · rw [hfold, hd2, hb2]; omega
      · rw [hfold, hd3, hb3]; omega
      · rw [hfold, hd4, hb4]
        simp only [List.length_cons]
        omega

/-- C5: for a non-empty record list the route returns the built
archive; the archive always contains the metadata report entry; exactly
one report block is appended per input record; and the downloaded count
equals the number of PDF entries written and never exceeds the number
of input records. -/
theorem download_zip_total (env : List Char → Option (List Char))
    (papers : List RecordIn) (topic : List Char) (h : papers ≠ []) :
    download_zip env papers topic =
      Except.ok (downloadZipRun env papers topic) ∧
    ((("metadata_report.txt".data), (downloadZipRun env papers topic).report) ∈
      (downloadZipRun env papers topic).archive) ∧
    (downloadZipRun env papers topic).blocks.length = papers.length ∧
    (downloadZipRun env papers topic).downloaded =
      (downloadZipRun env papers topic).pdfEntries.length ∧
    (downloadZipRun env papers topic).downloaded ≤ papers.length := by
  obtain ⟨d, hd0, hd1, hd2, hd3, hd4⟩ := zipFold_delta papers env 0 initZipState
  have hinit : initZipState.downloaded = 0 ∧ initZipState.pdfEntries = ([] : List (List Char × List Char)) ∧
      initZipState.blocks = ([] : List (List (List Char))) := ⟨rfl, rfl, rfl⟩
  refine ⟨?_, ?_, ?_, ?_, ?_⟩
  · unfold download_zip
    rw [if_neg (by simpa using h)]
  · unfold downloadZipRun
    simp
  · show (zipFold env 0 papers initZipState).blocks.length = papers.length
    rw [hd4, hinit.2.2]
    simp
  · show (zipFold env 0 papers initZipState).downloaded =
      (zipFold env 0 papers initZipState).pdfEntries.length
    rw [hd1, hd2, hinit.1, hinit.2.1]
    simp
  · show (zipFold env 0 papers initZipState).downloaded ≤ papers.length
    rw [hd1, hinit.1]
    omega

/-- A record with no download URL at all. -/
def pNone : RecordIn :=
  { title := none, authors := none, year := none, abstract := none,
    download_url := none }

/-- An environment on which every fetch fails. -/
def envNone : List Char → Option (List Char) := fun _ => none

/-- C5 witness: a one-record batch. -/
theorem download_zip_total_witness :
    download_zip envNone [pNone] ("t".data) =
      Except.ok (downloadZipRun envNone [pNone] ("t".data)) ∧
    ((("metadata_report.txt".data),
      (downloadZipRun envNone [pNone] ("t".data)).report) ∈
      (downloadZipRun envNone [pNone] ("t".data)).archive) ∧
    (downloadZipRun envNone [pNone] ("t".data)).blocks.length = 1 ∧
    (downloadZipRun envNone [pNone] ("t".data)).downloaded =
      (downloadZipRun envNone [pNone] ("t".data)).pdfEntries.length ∧
    (downloadZipRun envNone [pNone] ("t".data)).downloaded ≤ 1 :=
  download_zip_total envNone [pNone] ("t".data) (by simp)

/-- A record with a present download URL whose host serves bytes that
are not a PDF. -/
def pBad : RecordIn :=
  { title := some ("T".data), authors := none, year := none, abstract := none,
    download_url := some ("http://a".data) }

/-- An environment whose every URL serves non-PDF bytes. -/
def envBad : List Char → Option (List Char) := fun _ => some ("nope".data)

/-- An environment whose every URL serves PDF-signed bytes. -/
def envGood : List Char → Option (List Char) := fun _ => some ("%PDF-1.4".data)

/-- C4 counterexample: for this record the URL is present and one
download is attempted (one fetch issued), the attempt fails the
magic-byte check, and no delay at all is performed: the continue
statements skip the sleep, so failed attempts are not followed by the
claimed fixed delay. -/
theorem download_zip_no_sleep_on_failure :
    pyTruthy pBad.download_url = true ∧
    (downloadZipRun envBad [pBad] ("t".data)).fetches = 1 ∧
    (downloadZipRun envBad [pBad] ("t".data)).sleeps = 0 := by decide

/-- C4 (amended): the fixed 1-unit delay occurs exactly after each
successful download (fetched, magic-checked and written to the
archive): the number of sleeps equals the downloaded count, and failed
attempts proceed to the next record without any delay. -/
theorem download_zip_sleeps_eq_downloaded
    (env : List Char → Option (List Char)) (papers : List RecordIn)
    (topic : List Char) (r : ZipResult)
    (h : download_zip env papers topic = Except.ok r) :
    r.sleeps = r.downloaded := by
  unfold download_zip at h
  by_cases he : papers.isEmpty = true
  · rw [if_pos he] at h
    exact absurd h (by simp)
  · rw [if_neg he] at h
    have hr : downloadZipRun env papers topic = r := by
      simpa using h
    subst hr
    obtain ⟨d, hd0, hd1, hd2, hd3, hd4⟩ := zipFold_delta papers env 0 initZipState
    show (zipFold env 0 papers initZipState).sleeps =
      (zipFold env 0 papers initZipState).downloaded
    rw [hd1, hd3]
    rfl

/-- C4 witness: a successful one-record batch, with one sleep for one
download. -/
theorem download_zip_sleeps_witness :
    download_zip envGood [pBad] ("t".data) =
      Except.ok (downloadZipRun envGood [pBad] ("t".data)) ∧
    (downloadZipRun envGood [pBad] ("t".data)).sleeps =
      (downloadZipRun envGood [pBad] ("t".data)).downloaded :=
  ⟨rfl, download_zip_sleeps_eq_downloaded envGood [pBad] ("t".data) _ rfl⟩

/-- C6: a fetched payload whose first four bytes are not the %PDF magic
makes the single-download route answer the invalid-PDF client error and
serve no file, and makes the archive loop skip the record: the
downloaded count and the archive PDF entries are left unchanged. -/
theorem magic_check_rejects (env : List Char → Option (List Char))
    (url content : List Char) (titleOpt : Option (List Char))
    (i : Nat) (p : RecordIn) (st : ZipState)
    (h1 : url ≠ []) (h2 : env url = some content)
    (h3 : content.take 4 ≠ ("%PDF".data))
    (hp : p.download_url = some url) :
    download_single env (some url) titleOpt =
      SingleResp.clientError ("The URL does not serve a valid PDF file.".data) ∧
    (zipStep env i p st).downloaded = st.downloaded ∧
    (zipStep env i p st).pdfEntries = st.pdfEntries := by
  have hu : pyTruthy (some url) = true := by
    cases url with
    | nil => exact absurd rfl h1
    | cons a t => rfl
  have hu2 : pyTruthy p.download_url = true := by rw [hp]; exact hu
  refine ⟨?_, ?_⟩
  · simp [download_single, hu, h2, h3]
  · simp [zipStep, hp, hu, hu2, h2, h3]

/-- C6 witness: the concrete non-PDF payload "nope". -/
theorem magic_check_rejects_witness :
    download_single envBad (some ("http://a".data)) none =
      SingleResp.clientError ("The URL does not serve a valid PDF file.".data) ∧
    (zipStep envBad 0 pBad initZipState).downloaded = initZipState.downloaded ∧
    (zipStep envBad 0 pBad initZipState).pdfEntries = initZipState.pdfEntries :=
  magic_check_rejects envBad ("http://a".data) ("nope".data) none 0 pBad
    initZipState (by decide) rfl (by decide) rfl

/-
  C8: the year extraction equals the leftmost word-bounded 19xx/20xx
  token of the byline text.
-/

/-- Bridge predicate for the induction: position i of l starts a year
token, where prev is the character just before l. -/
def tokLoc (prev : Option Char) (l : List Char) (i : Nat) : Bool :=
  isYear4 ((l.drop i).take 4) &&
  noWordO (match i with | 0 => prev | j + 1 => l.get? j) &&
  noWordO (l.get? (i + 4))

lemma find?_of_map (p : Nat → Bool) (f : Nat → Nat) :
    ∀ l : List Nat, List.find? p (l.map f) =
      (List.find? (fun x => p (f x)) l).map f := by
  intro l
  induction l with
  | nil => rfl
  | cons a t ih =>
      rw [List.map_cons, List.find?_cons, List.find?_cons]
      by_cases h : p (f a) = true
      · simp [h]
      · have h2 : p (f a) = false := by simpa using h
        simp only [h2]
        exact ih

lemma tokLoc_succ (prev : Option Char) (c : Char) (rest : List Char) (j : Nat) :
    tokLoc prev (c :: rest) (j + 1) = tokLoc (some c) rest j := by
  cases j with
  | zero => rfl
  | succ k => rfl

lemma tokLoc_zero (prev : Option Char) (l : List Char) :
    tokLoc prev l 0 = yearHead prev l := by
  cases l <;> rfl

/-- The leftmost-match scan of the year regex agrees with the indexed
search for the first matching position. -/
lemma findYearAux_eq_find? : ∀ (l : List Char) (prev : Option Char),
    findYearAux prev l =
      ((List.range l.length).find? (tokLoc prev l)).map
        (fun i => (l.drop i).take 4) := by
  intro l
  induction l with
  | nil => intro prev; rfl
  | cons c rest ih =>
      intro prev
      rw [findYearAux]
      rw [show (c :: rest).length = rest.length + 1 from rfl,
        List.range_succ_eq_map, List.find?_cons]
      by_cases hy : yearHead prev (c :: rest) = true
      · rw [tokLoc_zero prev (c :: rest)] at *
        rw [hy]
        rfl
      · rw [if_neg hy]
        have h0 : tokLoc prev (c :: rest) 0 = false := by
          rw [tokLoc_zero]
          exact Bool.eq_false_iff.mpr hy
        rw [h0]
        rw [find?_of_map (tokLoc prev (c :: rest)) Nat.succ (List.range rest.length)]
        have hps : (fun x => tokLoc prev (c :: rest) (Nat.succ x)) =
            tokLoc (some c) rest := funext fun j => tokLoc_succ prev c rest j
        rw [hps, ih (some c), Option.map_map]
        rfl

/-- With no preceding character, the bridge predicate is exactly the
claimed word-bounded-token predicate. -/
lemma tokLoc_none (s : List Char) : tokLoc none s = yearTokenAt s := by
  funext i
  cases i with
  | zero => rfl
  | succ j =>
      unfold tokLoc yearTokenAt prevCharAt
      rfl

/-- C8: for every result block, the extracted year field equals the
first word-bounded 4-digit 19xx/20xx token of the extracted
authors/venue text, and the sentinel N/A when no such token occurs. -/
theorem extractPaper_year_spec (item : Block) :
    (extractPaper item).year = specYear (extractPaper item).authors := by
  have hy : (extractPaper item).year =
      yearOfAuthors (item.info_text.getD ("Unknown".data)) := rfl
  have ha : (extractPaper item).authors =
      item.info_text.getD ("Unknown".data) := rfl
  rw [hy, ha]
  generalize item.info_text.getD ("Unknown".data) = s
  unfold yearOfAuthors specYear specYearFind
  rw [findYearAux_eq_find?, tokLoc_none]
  cases List.find? (yearTokenAt s) (List.range s.length) <;> rfl

end Scholar
